import Mathlib

/-!
Verification of the session/cache subsystem of the rag_cli repository.

The embedding models, faithfully to `src/src/rag_cli/{cache,rag,files,config}.py`
(and the near-duplicate top-level `src/rag_cli.py`):

* Python/JSON values appearing in the persisted cache document (`PyVal`);
* the cache file (`FileState`): missing, unreadable/invalid, or parsed JSON;
* `load_cache`, `save_cache`, `canonical_key`, `save_vector_store_id_for_key`,
  `load_vector_store_id_for_key`, `load_last_vector_store_id`,
  `add_indexed_files`, `get_indexed_files`, `resolve_vector_store_id`;
* `_collect_supported_files`, `index_path_or_glob`, `extend_path_or_glob`
  (remote uploads and the confirmation prompt are modelled by an upload
  oracle, a confirmation flag, and an effect trace);
* the `chat` loop transcript evolution.

External OS facilities used by the code (`os.path.isdir`, `os.path.isfile`,
`os.path.abspath`, `glob.glob`) are abstract fields of an environment
record; the string algorithms of `os.path.expandvars`, `os.path.expanduser`,
`os.path.splitext` and `os.path.join` are modelled after CPython's
`posixpath` implementation.
-/

namespace RagCli

/-- Python/JSON values that can occur in the persisted cache document.
List values in this document are lists of path strings (which is the only
list shape this program ever writes or reads from its cache). -/
inductive PyVal where
  | pnone
  | pstr (s : String)
  | plist (l : List String)
  | pdict (entries : List (String × PyVal))

/-- Python dict lookup `d.get(k)` on a string-keyed dict (first matching key;
parsed JSON objects and dicts built by the code have unique keys). -/
def dget {α : Type} : List (String × α) → String → Option α
  | [], _ => none
  | (k', v') :: rest, k => if k' = k then some v' else dget rest k

/-- Python dict lookup with default, `d.get(k, dflt)`. -/
def dgetD {α : Type} (l : List (String × α)) (k : String) (d : α) : α :=
  (dget l k).getD d

/-- Python dict assignment `d[k] = v`: overwrite in place preserving position,
or append a new entry at the end. -/
def dset {α : Type} : List (String × α) → String → α → List (String × α)
  | [], k, v => [(k, v)]
  | (k', v') :: rest, k, v =>
    if k' = k then (k, v) :: rest else (k', v') :: dset rest k v

/-- Entries of a Python dict value (callers only apply this to dicts;
`cache or \x7b\x7d` in `save_cache` maps a falsy value to the empty dict). -/
def entriesOf : PyVal → List (String × PyVal)
  | .pdict l => l
  | _ => []

/-- Python truthiness of a cache value, as used by `if not vs:`. -/
def pyTruthy : PyVal → Bool
  | .pnone => false
  | .pstr s => s != ""
  | .plist l => !l.isEmpty
  | .pdict l => !l.isEmpty

/-- Python `str.startswith` (on the character list of the string). -/
def pyStartsWith (pre s : String) : Bool :=
  pre.data.isPrefixOf s.data

/-- Python `str.endswith`. -/
def pyEndsWith (suffix s : String) : Bool :=
  suffix.data.isSuffixOf s.data

/-- Python `str.lower` (ASCII case folding, which covers every string the
program lowercases: file extensions and chat commands). -/
def pyLower (s : String) : String :=
  ⟨s.data.map Char.toLower⟩

/-- Python `str.strip` with no argument (trims surrounding whitespace). -/
def pyStrip (s : String) : String :=
  ⟨((s.data.dropWhile Char.isWhitespace).reverse.dropWhile Char.isWhitespace).reverse⟩

/-- The state of the cache file `~/.rag_vector_stores.json`:
`none` when the file does not exist, `some (.error ())` when reading or JSON
parsing fails, `some (.ok v)` when it parses to the JSON value `v`. -/
abbrev FileState := Option (Except Unit PyVal)

/-- The dict literal returned by `_empty_cache()` in `cache.py`. -/
def emptyCacheEntries : List (String × PyVal) :=
  [("sessions", .pdict []), ("files_per_vs", .pdict []), ("_last", .pnone)]

/-- The loop of the legacy branch of `load_cache`: insert every entry of the
raw legacy dict whose key does not start with an underscore into an initially
empty `sessions` dict. -/
def legacySessions (entries : List (String × PyVal)) : List (String × PyVal) :=
  entries.foldl (fun acc e => if pyStartsWith "_" e.1 then acc else dset acc e.1 e.2) []

/-- `load_cache` from `cache.py`: an absent or unreadable/invalid file yields
the empty cache; a parsed dict with a `sessions` or `files_per_vs` key is
taken as the new format; any other dict is upgraded from the legacy flat
format; a parsed non-dict raises (`raw.items()` on a non-dict). -/
def load_cache (fs : FileState) : Except Unit PyVal :=
  match fs with
  | none => .ok (.pdict emptyCacheEntries)
  | some (.error _) => .ok (.pdict emptyCacheEntries)
  | some (.ok (.pdict entries)) =>
    if (dget entries "sessions").isSome || (dget entries "files_per_vs").isSome then
      .ok (.pdict [("sessions", dgetD entries "sessions" (.pdict [])),
                   ("files_per_vs", dgetD entries "files_per_vs" (.pdict [])),
                   ("_last", dgetD entries "_last" .pnone)])
    else
      .ok (.pdict [("sessions", .pdict (legacySessions entries)),
                   ("files_per_vs", .pdict []),
                   ("_last", dgetD entries "_last" .pnone)])
  | some (.ok _) => .error ()

/-- `base.update(cache)` in `save_cache`: fold the entries of the written
cache over the default document. -/
def dictUpdate (base upd : List (String × PyVal)) : List (String × PyVal) :=
  upd.foldl (fun acc e => dset acc e.1 e.2) base

/-- `save_cache` from `cache.py`: the JSON document actually written, namely
`_empty_cache()` updated with the given cache dict. -/
def save_cache (cache : PyVal) : PyVal :=
  .pdict (dictUpdate emptyCacheEntries (entriesOf cache))

/-- The external environment of the program: the process environment and the
filesystem facts consulted through `os.path` and `glob`. `isdir`, `isfile`,
`abspath` and `globMatches` are the opaque OS services `os.path.isdir`,
`os.path.isfile`, `os.path.abspath` and `glob.glob(pattern, recursive=True)`. -/
structure Env where
  vars : List (String × String)
  home : String
  userHomes : List (String × String)
  isdir : String → Bool
  isfile : String → Bool
  abspath : String → String
  globMatches : String → List String

/-- Characters forming an environment-variable name in `posixpath.expandvars`
(the regular expression word characters, for ASCII input). -/
def isVarChar (c : Char) : Bool :=
  c.isAlphanum || c = '_'

/-- Lookup in a string-to-string mapping (environment dictionary). -/
def lookupStr (m : List (String × String)) (k : String) : Option String :=
  match m.find? (fun e => e.1 == k) with
  | some e => some e.2
  | none => none

/-- Single left-to-right pass of `posixpath.expandvars`: replace `$name` and
`$\x7bname\x7d` by the variable's value when it is set, leave the text alone
otherwise, and never rescan inserted values (CPython resumes its search after
the replacement). The `Nat` argument is recursion fuel; it is always at least
the length of the character list, so the fuel-exhausted arm is unreachable. -/
def expandvarsFuel (vars : List (String × String)) : Nat → List Char → List Char
  | 0, l => l
  | Nat.succ _, [] => []
  | Nat.succ n, '$' :: rest =>
    match rest with
    | '{' :: rest2 =>
      let name := rest2.takeWhile (fun c => c ≠ '}')
      if name.length < rest2.length then
        match lookupStr vars name.asString with
        | some v => v.data ++ expandvarsFuel vars n (rest2.drop (name.length + 1))
        | none => '$' :: '{' :: (name ++ '}' :: expandvarsFuel vars n (rest2.drop (name.length + 1)))
      else '$' :: '{' :: expandvarsFuel vars n rest2
    | c :: _ =>
      if isVarChar c then
        let name := rest.takeWhile isVarChar
        match lookupStr vars name.asString with
        | some v => v.data ++ expandvarsFuel vars n (rest.dropWhile isVarChar)
        | none => '$' :: (name ++ expandvarsFuel vars n (rest.dropWhile isVarChar))
      else '$' :: expandvarsFuel vars n rest
    | [] => ['$']
  | Nat.succ n, c :: rest => c :: expandvarsFuel vars n rest

/-- `os.path.expandvars` for an environment dictionary. -/
def expandvars (vars : List (String × String)) (s : String) : String :=
  ⟨expandvarsFuel vars s.data.length s.data⟩

/-- Trailing-slash strip, `userhome.rstrip(sep)` in `posixpath.expanduser`. -/
def rstripSlashes (s : String) : String :=
  ⟨(s.data.reverse.dropWhile (fun c => c = '/')).reverse⟩

/-- `os.path.expanduser`: replace a leading `~` or `~user` component by the
corresponding home directory (`HOME` is assumed set, as on the systems this
program targets); an unknown `~user` leaves the path unchanged. -/
def expanduser (env : Env) (path : String) : String :=
  if pyStartsWith "~" path then
    let rest := path.data.drop 1
    let name := rest.takeWhile (fun c => c ≠ '/')
    let tail := rest.dropWhile (fun c => c ≠ '/')
    let userhome? : Option String :=
      if name.isEmpty then some env.home
      else lookupStr env.userHomes name.asString
    match userhome? with
    | none => path
    | some uh =>
      let res := rstripSlashes uh ++ tail.asString
      if res = "" then "/" else res
  else path

/-- The expression `os.path.expanduser(os.path.expandvars(path_or_glob))`
shared by `canonical_key` and `_collect_supported_files`. -/
def expand_input (env : Env) (s : String) : String :=
  expanduser env (expandvars env.vars s)

/-- `canonical_key` from `cache.py`: directories become absolute paths, every
other input stays as its expanded form. -/
def canonical_key (env : Env) (path_or_glob : String) : String :=
  if env.isdir (expand_input env path_or_glob) then
    env.abspath (expand_input env path_or_glob)
  else expand_input env path_or_glob

/-- `SUPPORTED_EXTENSIONS` from `config.py` (a set in Python; only membership
is ever used). -/
def SUPPORTED_EXTENSIONS : List String :=
  [".pdf", ".txt", ".md", ".rtf", ".docx", ".pptx", ".csv", ".tsv",
   ".html", ".htm", ".json", ".xml", ".org"]

/-- `os.path.splitext(p)[1]`: the extension of the basename of `p`, where a
basename consisting only of leading dots before the final dot has no
extension (CPython `genericpath._splitext`). -/
def splitextExt (p : String) : String :=
  let b := (p.data.reverse.takeWhile (fun c => c ≠ '/')).reverse
  let revb := b.reverse
  let afterRev := revb.takeWhile (fun c => c ≠ '.')
  if afterRev.length = revb.length then ""
  else
    let stem := (revb.drop (afterRev.length + 1)).reverse
    if stem.all (fun c => c = '.') then "" else ('.' :: afterRev.reverse).asString

/-- `os.path.join` for the non-absolute, non-empty components used here. -/
def pjoin (a b : String) : String :=
  if a = "" then b
  else if pyEndsWith "/" a then a ++ b
  else a ++ "/" ++ b

/-- The glob expansion step of `_collect_supported_files`: a directory input
is searched recursively under its absolute path, anything else is used as a
glob pattern directly. -/
def collectRawPaths (env : Env) (path_or_glob : String) : List String :=
  if env.isdir (expand_input env path_or_glob) then
    env.globMatches (pjoin (pjoin (env.abspath (expand_input env path_or_glob)) "**") "*")
  else env.globMatches (expand_input env path_or_glob)

/-- The per-path test of the collection loop: a regular file whose lowercased
extension is in the allow-list. -/
def isSupportedFile (env : Env) (p : String) : Bool :=
  env.isfile p && SUPPORTED_EXTENSIONS.contains (pyLower (splitextExt p))

/-- Code-point lexicographic less-or-equal on character lists: the order in
which Python compares strings. -/
def lexLe : List Char → List Char → Bool
  | [], _ => true
  | _ :: _, [] => false
  | a :: as, b :: bs => if a < b then true else if b < a then false else lexLe as bs

/-- Python string less-or-equal, as a relation on strings. -/
def pyStrLe (a b : String) : Prop :=
  lexLe a.data b.data = true

instance : DecidableRel pyStrLe :=
  fun a b => inferInstanceAs (Decidable (lexLe a.data b.data = true))

/-- Python `sorted(set(l))` for a list of strings: deduplicate, then sort in
the code-point order (the result depends only on the membership of `l`). -/
def pythonSortedSet (l : List String) : List String :=
  List.insertionSort pyStrLe l.dedup

/-- `_collect_supported_files` from `rag.py`: the sorted, deduplicated
absolute paths of supported regular files, and the skipped regular files. -/
def _collect_supported_files (env : Env) (path_or_glob : String) :
    List String × List String :=
  let paths := collectRawPaths env path_or_glob
  let file_paths := (paths.filter (isSupportedFile env)).map env.abspath
  let skipped :=
    paths.filter (fun p => env.isfile p && !SUPPORTED_EXTENSIONS.contains (pyLower (splitextExt p)))
  (pythonSortedSet file_paths, skipped)

/-- The list stored under a store id in `files_per_vs` (the only list shape
this program writes there). -/
def asStrList : PyVal → List String
  | .plist l => l
  | _ => []

/-- `get_indexed_files` from `cache.py`: the recorded uploaded set for a
store id, empty for an unknown store; propagates the exception of a cache
file whose JSON is not a dict. -/
def get_indexed_files (fs : FileState) (vs_id : String) : Except Unit (List String) :=
  match load_cache fs with
  | .error e => .error e
  | .ok c =>
    match dget (entriesOf c) "files_per_vs" with
    | some (.pdict fps) => .ok (asStrList (dgetD fps vs_id (.plist [])))
    | some _ => .error ()
    | none => .ok []

/-- `add_indexed_files` from `cache.py`: union the absolute forms of the
given files into `files_per_vs[vs_id]`, keep the stored list sorted and
deduplicated, and write the cache back; returns the new file state. -/
def add_indexed_files (env : Env) (vs_id : String) (files : List String)
    (fs : FileState) : Except Unit FileState :=
  match load_cache fs with
  | .error e => .error e
  | .ok c =>
    match dgetD (entriesOf c) "files_per_vs" (.pdict []) with
    | .pdict fps =>
      let existing := asStrList (dgetD fps vs_id (.plist []))
      let combined := pythonSortedSet (existing ++ files.map env.abspath)
      .ok (some (.ok (save_cache
        (.pdict (dset (entriesOf c) "files_per_vs" (.pdict (dset fps vs_id (.plist combined))))))))
    | _ => .error ()

/-- `save_vector_store_id_for_key` from `cache.py`: upsert the session and
set `_last`, then write the cache back. -/
def save_vector_store_id_for_key (key vs_id : String) (fs : FileState) :
    Except Unit FileState :=
  match load_cache fs with
  | .error e => .error e
  | .ok c =>
    match dget (entriesOf c) "sessions" with
    | some (.pdict sess) =>
      .ok (some (.ok (save_cache
        (.pdict (dset (dset (entriesOf c) "sessions" (.pdict (dset sess key (.pstr vs_id))))
          "_last" (.pstr vs_id))))))
    | some _ => .error ()
    | none => .error ()

/-- `load_vector_store_id_for_key` from `cache.py`: `cache["sessions"].get(key)`. -/
def load_vector_store_id_for_key (key : String) (fs : FileState) : Except Unit PyVal :=
  match load_cache fs with
  | .error e => .error e
  | .ok c =>
    match dget (entriesOf c) "sessions" with
    | some (.pdict sess) => .ok (dgetD sess key .pnone)
    | some _ => .error ()
    | none => .error ()

/-- `load_last_vector_store_id` from `cache.py`: `cache.get("_last")`. -/
def load_last_vector_store_id (fs : FileState) : Except Unit PyVal :=
  match load_cache fs with
  | .error e => .error e
  | .ok c => .ok (dgetD (entriesOf c) "_last" .pnone)

/-- Failure modes of `resolve_vector_store_id`: the two RuntimeErrors of the
source, and the propagated exception of an unloadable cache document. -/
inductive RagErr where
  | noCachedStore
  | noStoreForKey (key : String)
  | raised
deriving DecidableEq

/-- `resolve_vector_store_id` from `cache.py`, with the cache file state
threaded explicitly: `auto` uses `_last`, a `vs_`-prefixed token is returned
verbatim, anything else is looked up under its canonical key. The second
component is the cache file state after the call (the function only reads). -/
def resolve_vector_store_id (env : Env) (fs : FileState) (arg : String) :
    Except RagErr PyVal × FileState :=
  if arg = "auto" then
    match load_last_vector_store_id fs with
    | .error _ => (.error .raised, fs)
    | .ok vs => if pyTruthy vs then (.ok vs, fs) else (.error .noCachedStore, fs)
  else if pyStartsWith "vs_" arg then (.ok (.pstr arg), fs)
  else
    match load_vector_store_id_for_key (canonical_key env arg) fs with
    | .error _ => (.error .raised, fs)
    | .ok vs =>
      if pyTruthy vs then (.ok vs, fs)
      else (.error (.noStoreForKey (canonical_key env arg)), fs)

/-- Observable side effects of an index/extend run: whether the cost
confirmation prompt was issued, whether a remote store was created, and the
paths for which a remote upload was attempted. -/
structure OpTrace where
  prompted : Bool
  storeCreated : Bool
  uploads : List String
deriving DecidableEq

/-- How an index/extend run ends: the `NoSupportedFiles` RuntimeError naming
the input, the "nothing to do" early return of `extend`, `SystemExit(code)`
from a declined confirmation, a propagated cache exception, or completion. -/
inductive OpOutcome where
  | noSupported (input : String)
  | nothingToDo
  | exited (code : Nat)
  | raised
  | completed
deriving DecidableEq

/-- `extend_path_or_glob` from `rag.py`: collect, raise `NoSupportedFiles`
when nothing is collected, diff against the recorded uploaded set, return
early when nothing is new, otherwise prompt, upload the new files (best
effort per file, via the `uploadOk` oracle), and record the successes. -/
def extend_path_or_glob (env : Env) (confirm : Bool) (uploadOk : String → Bool)
    (vector_store_id path_or_glob : String) (fs : FileState) :
    OpOutcome × OpTrace × FileState :=
  let file_paths := (_collect_supported_files env path_or_glob).1
  if file_paths.isEmpty then (.noSupported path_or_glob, ⟨false, false, []⟩, fs)
  else
    match get_indexed_files fs vector_store_id with
    | .error _ => (.raised, ⟨false, false, []⟩, fs)
    | .ok already =>
      let new_files := file_paths.filter (fun p => !already.contains p)
      if new_files.isEmpty then (.nothingToDo, ⟨false, false, []⟩, fs)
      else if confirm then
        let indexed_success := new_files.filter uploadOk
        if indexed_success.isEmpty then (.completed, ⟨true, false, new_files⟩, fs)
        else
          match add_indexed_files env vector_store_id indexed_success fs with
          | .error _ => (.raised, ⟨true, false, new_files⟩, fs)
          | .ok fs1 => (.completed, ⟨true, false, new_files⟩, fs1)
      else (.exited 0, ⟨true, false, []⟩, fs)

/-- `index_path_or_glob` from `rag.py`: collect, raise `NoSupportedFiles`
when nothing is collected, prompt, create the remote store, upload every
collected file (best effort per file), record the successes, and save the
session under the input's canonical key. -/
def index_path_or_glob (env : Env) (confirm : Bool) (uploadOk : String → Bool)
    (new_store_id path_or_glob : String) (fs : FileState) :
    OpOutcome × OpTrace × FileState :=
  let file_paths := (_collect_supported_files env path_or_glob).1
  if file_paths.isEmpty then (.noSupported path_or_glob, ⟨false, false, []⟩, fs)
  else if confirm then
    let indexed_success := file_paths.filter uploadOk
    let step1 :=
      if indexed_success.isEmpty then Except.ok fs
      else add_indexed_files env new_store_id indexed_success fs
    match step1 with
    | .error _ => (.raised, ⟨true, true, file_paths⟩, fs)
    | .ok fs1 =>
      match save_vector_store_id_for_key (canonical_key env path_or_glob) new_store_id fs1 with
      | .error _ => (.raised, ⟨true, true, file_paths⟩, fs1)
      | .ok fs2 => (.completed, ⟨true, true, file_paths⟩, fs2)
  else (.exited 0, ⟨true, false, []⟩, fs)

/-- A transcript message of the chat loop (`"role"`/`"content"` dict). -/
structure ChatMsg where
  role : String
  content : String
deriving DecidableEq

/-- Strict user/assistant alternation of a transcript. -/
def alternates : List ChatMsg → Bool
  | [] => true
  | [_] => false
  | u :: a :: rest => u.role == "user" && a.role == "assistant" && alternates rest

/-- The `chat` loop of `rag.py` over a stream of terminal events: `none` is
an `EOFError`/`KeyboardInterrupt` on `input()`, `some raw` a typed line.
`remote` is the hosted service: given the messages sent, it either fails
(the round's exception, caught and reported) or returns the answer text.
The result is the in-memory transcript when the loop stops or the event
stream ends. -/
def chat_loop (remote : List ChatMsg → Except Unit String) :
    List (Option String) → List ChatMsg → List ChatMsg
  | [], history => history
  | none :: _, history => history
  | some raw :: rest, history =>
    let s := pyStrip raw
    if s = "" then chat_loop remote rest history
    else if pyLower s = "/exit" ∨ pyLower s = "/quit" ∨ pyLower s = "/sair" then history
    else if pyLower s = "/clear" then chat_loop remote rest []
    else
      match remote (history ++ [⟨"user", s⟩]) with
      | .error _ => chat_loop remote rest history
      | .ok answer => chat_loop remote rest (history ++ [⟨"user", s⟩, ⟨"assistant", answer⟩])

/-- An environment in which no path names a directory or file and every glob
matches nothing. -/
def envNoFiles : Env where
  vars := []
  home := "/h"
  userHomes := []
  isdir := fun _ => false
  isfile := fun _ => false
  abspath := fun s => s
  globMatches := fun _ => []

/-- An environment in which every glob matches the single regular file
`a.md`, whose absolute path is `/a.md`. -/
def envOneMd : Env where
  vars := []
  home := "/h"
  userHomes := []
  isdir := fun _ => false
  isfile := fun p => p == "a.md"
  abspath := fun s => if pyStartsWith "/" s then s else "/" ++ s
  globMatches := fun _ => ["a.md"]

/-- An environment whose variable `A` expands to the text `$B` and whose
variable `B` expands to `x` (values containing `$` references are legal in a
process environment; `expandvars` performs a single pass). -/
def envVarChain : Env where
  vars := [("A", "$B"), ("B", "x")]
  home := "/h"
  userHomes := []
  isdir := fun _ => false
  isfile := fun _ => false
  abspath := fun s => s
  globMatches := fun _ => []

/-- An environment with one directory `d` of absolute path `/d`. -/
def envOneDir : Env where
  vars := []
  home := "/h"
  userHomes := []
  isdir := fun s => s == "d" || s == "/d"
  isfile := fun _ => false
  abspath := fun s => if pyStartsWith "/" s then s else "/" ++ s
  globMatches := fun _ => []

/-- A cache file state recording `/a.md` as already uploaded to `vs_1`. -/
def fsOneIndexed : FileState :=
  some (.ok (.pdict [("sessions", .pdict []),
                     ("files_per_vs", .pdict [("vs_1", .plist ["/a.md"])]),
                     ("_last", .pnone)]))

/-! Helper lemmas about the dict model, the Python sorted-set operation, and
the shape of loaded and saved cache documents. -/

theorem dget_dset_self {α : Type} (l : List (String × α)) (k : String) (v : α) :
    dget (dset l k v) k = some v := by
  induction l with
  | nil => simp [dset, dget]
  | cons e rest ih =>
    obtain ⟨k', v'⟩ := e
    by_cases h : k' = k
    · simp [dset, h, dget]
    · simp [dset, h, dget, ih]

theorem dset_of_dget_self {α : Type} (l : List (String × α)) (k : String) (v : α)
    (h : dget l k = some v) : dset l k v = l := by
  induction l with
  | nil => simp [dget] at h
  | cons e rest ih =>
    obtain ⟨k', v'⟩ := e
    by_cases hk : k' = k
    · subst hk
      have h' : v' = v := by simpa [dget] using h
      subst h'
      simp [dset]
    · simp only [dget, if_neg hk] at h
      simp [dset, hk, ih h]

theorem dset_append_of_dget_none {α : Type} (l : List (String × α)) (k : String) (v : α)
    (h : dget l k = none) : dset l k v = l ++ [(k, v)] := by
  induction l with
  | nil => simp [dset]
  | cons e rest ih =>
    obtain ⟨k', v'⟩ := e
    by_cases hk : k' = k
    · simp [dget, hk] at h
    · simp only [dget, if_neg hk] at h
      simp [dset, hk, ih h]

theorem dget_append_of_dget_none {α : Type} (l₁ l₂ : List (String × α)) (k : String)
    (h : dget l₁ k = none) : dget (l₁ ++ l₂) k = dget l₂ k := by
  induction l₁ with
  | nil => simp
  | cons e rest ih =>
    obtain ⟨k', v'⟩ := e
    by_cases hk : k' = k
    · simp [dget, hk] at h
    · simp only [dget, if_neg hk] at h
      simp [dget, hk, ih h]

theorem lexLe_total : ∀ x y : List Char, lexLe x y = true ∨ lexLe y x = true
  | [], _ => Or.inl rfl
  | _ :: _, [] => Or.inr rfl
  | a :: as, b :: bs => by
    rcases lt_trichotomy a b with h | h | h
    · exact Or.inl (by simp [lexLe, h])
    · subst h
      rcases lexLe_total as bs with ih | ih
      · exact Or.inl (by simp [lexLe, lt_irrefl, ih])
      · exact Or.inr (by simp [lexLe, lt_irrefl, ih])
    · exact Or.inr (by simp [lexLe, h])

theorem lexLe_trans : ∀ x y z : List Char,
    lexLe x y = true → lexLe y z = true → lexLe x z = true
  | [], _, _, _, _ => rfl
  | _ :: _, [], _, h1, _ => by simp [lexLe] at h1
  | _ :: _, _ :: _, [], _, h2 => by simp [lexLe] at h2
  | a :: as, b :: bs, c :: cs, h1, h2 => by
    simp only [lexLe] at h1 h2 ⊢
    by_cases hab : a < b
    · by_cases hbc : b < c
      · rw [if_pos (lt_trans hab hbc)]
      · by_cases hcb : c < b
        · rw [if_neg hbc, if_pos hcb] at h2
          exact absurd h2 (by simp)
        · have hbc' : b = c := le_antisymm (not_lt.mp hcb) (not_lt.mp hbc)
          subst hbc'
          rw [if_pos hab]
    · by_cases hba : b < a
      · rw [if_neg hab, if_pos hba] at h1
        exact absurd h1 (by simp)
      · have hab' : a = b := le_antisymm (not_lt.mp hba) (not_lt.mp hab)
        subst hab'
        rw [if_neg hab, if_neg hba] at h1
        by_cases hbc : a < c
        · rw [if_pos hbc]
        · by_cases hcb : c < a
          · rw [if_neg hbc, if_pos hcb] at h2
            exact absurd h2 (by simp)
          · rw [if_neg hbc, if_neg hcb] at h2 ⊢
            exact lexLe_trans as bs cs h1 h2

theorem lexLe_antisymm : ∀ x y : List Char,
    lexLe x y = true → lexLe y x = true → x = y
  | [], [], _, _ => rfl
  | [], _ :: _, _, h2 => by simp [lexLe] at h2
  | _ :: _, [], h1, _ => by simp [lexLe] at h1
  | a :: as, b :: bs, h1, h2 => by
    simp only [lexLe] at h1 h2
    by_cases hab : a < b
    · rw [if_neg (lt_asymm hab), if_pos hab] at h2
      exact absurd h2 (by simp)
    · by_cases hba : b < a
      · rw [if_neg hab, if_pos hba] at h1
        exact absurd h1 (by simp)
      · have hab' : a = b := le_antisymm (not_lt.mp hba) (not_lt.mp hab)
        subst hab'
        rw [if_neg hab, if_neg hab] at h1 h2
        rw [lexLe_antisymm as bs h1 h2]

theorem mem_pythonSortedSet {a : String} {l : List String} :
    a ∈ pythonSortedSet l ↔ a ∈ l := by
  unfold pythonSortedSet
  rw [List.mem_insertionSort]
  exact List.mem_dedup

theorem sorted_pythonSortedSet (l : List String) :
    List.Sorted pyStrLe (pythonSortedSet l) := by
  haveI : IsTotal String pyStrLe := ⟨fun a b => lexLe_total a.data b.data⟩
  haveI : IsTrans String pyStrLe := ⟨fun a b c => lexLe_trans a.data b.data c.data⟩
  exact List.sorted_insertionSort pyStrLe _

theorem nodup_pythonSortedSet (l : List String) : (pythonSortedSet l).Nodup :=
  (List.perm_insertionSort pyStrLe l.dedup).nodup_iff.mpr l.nodup_dedup

theorem pythonSortedSet_eq_self (l : List String) (hs : List.Sorted pyStrLe l)
    (hn : l.Nodup) : pythonSortedSet l = l := by
  unfold pythonSortedSet
  rw [List.dedup_eq_self.mpr hn]
  exact hs.insertionSort_eq

theorem pythonSortedSet_congr {l₁ l₂ : List String} (h : ∀ x, x ∈ l₁ ↔ x ∈ l₂) :
    pythonSortedSet l₁ = pythonSortedSet l₂ := by
  haveI : IsAntisymm String pyStrLe := ⟨fun a b h1 h2 => by
    cases a; cases b
    exact congrArg String.mk (lexLe_antisymm _ _ h1 h2)⟩
  refine List.eq_of_perm_of_sorted
    (((nodup_pythonSortedSet l₁).subperm ?_).antisymm ((nodup_pythonSortedSet l₂).subperm ?_))
    (sorted_pythonSortedSet l₁) (sorted_pythonSortedSet l₂)
  · intro x hx
    exact mem_pythonSortedSet.mpr ((h x).mp (mem_pythonSortedSet.mp hx))
  · intro x hx
    exact mem_pythonSortedSet.mpr ((h x).mpr (mem_pythonSortedSet.mp hx))

theorem load_cache_shape (fs : FileState) (c : PyVal) (h : load_cache fs = .ok c) :
    ∃ a b last, c = .pdict [("sessions", a), ("files_per_vs", b), ("_last", last)] := by
  rcases fs with _ | e
  · refine ⟨.pdict [], .pdict [], .pnone, ?_⟩
    have h' : Except.ok (ε := Unit) (.pdict emptyCacheEntries) = .ok c := h
    injection h' with h'
    exact h'.symm
  · rcases e with u | v
    · refine ⟨.pdict [], .pdict [], .pnone, ?_⟩
      have h' : Except.ok (ε := Unit) (.pdict emptyCacheEntries) = .ok c := h
      injection h' with h'
      exact h'.symm
    · rcases v with _ | s | l | entries
      · exact absurd h (by simp [load_cache])
      · exact absurd h (by simp [load_cache])
      · exact absurd h (by simp [load_cache])
      · by_cases hnew : ((dget entries "sessions").isSome || (dget entries "files_per_vs").isSome) = true
        · simp only [load_cache] at h
          rw [if_pos hnew] at h
          injection h with h
          exact ⟨_, _, _, h.symm⟩
        · simp only [load_cache] at h
          rw [if_neg hnew] at h
          injection h with h
          exact ⟨_, _, _, h.symm⟩

theorem load_cache_canonical (a b last : PyVal) :
    load_cache (some (.ok (.pdict [("sessions", a), ("files_per_vs", b), ("_last", last)]))) =
      .ok (.pdict [("sessions", a), ("files_per_vs", b), ("_last", last)]) := rfl

theorem save_cache_canonical (a b last : PyVal) :
    save_cache (.pdict [("sessions", a), ("files_per_vs", b), ("_last", last)]) =
      .pdict [("sessions", a), ("files_per_vs", b), ("_last", last)] := rfl

theorem legacySessions_aux (p : String × PyVal → Bool) :
    ∀ (entries acc : List (String × PyVal)), (entries.map Prod.fst).Nodup →
      (∀ e ∈ entries, dget acc e.1 = none) →
      entries.foldl (fun acc e => if p e then acc else dset acc e.1 e.2) acc =
        acc ++ entries.filter (fun e => !p e)
  | [], acc, _, _ => by simp
  | (k, v) :: rest, acc, hnd, hacc => by
    simp only [List.map_cons, List.nodup_cons] at hnd
    by_cases hp : p (k, v)
    · have := legacySessions_aux p rest acc hnd.2
        (fun e' he' => hacc e' (List.mem_cons_of_mem (k, v) he'))
      simp [List.foldl_cons, hp, this, List.filter_cons]
    · have hstep : dset acc k v = acc ++ [(k, v)] :=
        dset_append_of_dget_none acc k v (hacc (k, v) (List.mem_cons_self (k, v) rest))
      have hrest : ∀ e' ∈ rest, dget (acc ++ [(k, v)]) e'.1 = none := by
        intro e' he'
        have hne : k ≠ e'.1 := by
          intro hcontra
          exact hnd.1 (hcontra ▸ List.mem_map_of_mem Prod.fst he')
        rw [dget_append_of_dget_none _ _ _ (hacc e' (List.mem_cons_of_mem (k, v) he'))]
        simp [dget, hne]
      have hrec := legacySessions_aux p rest (acc ++ [(k, v)]) hnd.2 hrest
      have hp' : (!p (k, v)) = true := by
        cases hpe : p (k, v)
        · rfl
        · exact absurd hpe hp
      rw [List.foldl_cons, if_neg hp, hstep, hrec, List.filter_cons, if_pos hp',
        List.append_assoc]
      rfl

theorem legacySessions_filter (entries : List (String × PyVal))
    (hnd : (entries.map Prod.fst).Nodup) :
    legacySessions entries = entries.filter (fun e => !pyStartsWith "_" e.1) := by
  have := legacySessions_aux (fun e => pyStartsWith "_" e.1) entries [] hnd
    (fun e _ => rfl)
  simpa [legacySessions] using this

theorem alternates_append_pair : ∀ (l : List ChatMsg) (s a : String),
    alternates l = true → alternates (l ++ [⟨"user", s⟩, ⟨"assistant", a⟩]) = true
  | [], s, a, _ => by simp [alternates]
  | [_], _, _, h => by simp [alternates] at h
  | u :: v :: rest, s, a, h => by
    simp only [alternates, Bool.and_eq_true, beq_iff_eq] at h
    simp only [List.cons_append, alternates, Bool.and_eq_true, beq_iff_eq]
    exact ⟨h.1, alternates_append_pair rest s a h.2⟩

/-! Claim theorems. -/

/-- C5: loading a missing cache file or one whose contents are unreadable or
syntactically invalid JSON yields the empty cache structure (empty sessions,
empty files_per_vs, no last) without raising, and the next mutating
operation (recording a session, which goes through `save_cache`) still
succeeds on such states and persists the expected well-formed document. -/
theorem load_cache_degrades_and_recovers :
    load_cache none = .ok (.pdict emptyCacheEntries) ∧
    load_cache (some (.error ())) = .ok (.pdict emptyCacheEntries) ∧
    (∀ k v : String, save_vector_store_id_for_key k v none =
      .ok (some (.ok (.pdict [("sessions", .pdict [(k, .pstr v)]),
        ("files_per_vs", .pdict []), ("_last", .pstr v)])))) ∧
    (∀ k v : String, save_vector_store_id_for_key k v (some (.error ())) =
      .ok (some (.ok (.pdict [("sessions", .pdict [(k, .pstr v)]),
        ("files_per_vs", .pdict []), ("_last", .pstr v)])))) :=
  ⟨rfl, rfl, fun _ _ => rfl, fun _ _ => rfl⟩

/-- C3 (amended): loading a persisted legacy flat document upgrades it
without data loss — every non-reserved key/value pair appears in `sessions`,
`last` equals the legacy `_last` value and `files_per_vs` is empty —
provided no legacy session key is itself named `sessions` or `files_per_vs`
(the keys the shape detection sniffs for; the counterexample shows the
restriction is necessary). Keys of a parsed JSON object are unique. -/
theorem load_cache_legacy_upgrade (entries : List (String × PyVal))
    (h1 : dget entries "sessions" = none) (h2 : dget entries "files_per_vs" = none)
    (hnd : (entries.map Prod.fst).Nodup) :
    load_cache (some (.ok (.pdict entries))) =
      .ok (.pdict [("sessions", .pdict (entries.filter (fun e => !pyStartsWith "_" e.1))),
                   ("files_per_vs", .pdict []),
                   ("_last", dgetD entries "_last" .pnone)]) ∧
    (∀ k v, (k, v) ∈ entries → pyStartsWith "_" k = false →
      (k, v) ∈ entries.filter (fun e => !pyStartsWith "_" e.1)) := by
  constructor
  · have hc : ((dget entries "sessions").isSome || (dget entries "files_per_vs").isSome)
        = false := by
      rw [h1, h2]
      rfl
    have hstep : load_cache (some (.ok (.pdict entries))) =
        .ok (.pdict [("sessions", .pdict (legacySessions entries)),
                     ("files_per_vs", .pdict []),
                     ("_last", dgetD entries "_last" .pnone)]) := by
      simp [load_cache, hc]
    rw [hstep, legacySessions_filter entries hnd]
  · intro k v hmem hk
    simp [List.mem_filter, hmem, hk]

/-- C3 counterexample: a persisted document in the legacy flat shape whose
session key is literally "sessions" (a perfectly possible canonical key for
a glob input) is mis-detected as the new format, so its session pair is not
upgraded into the sessions map — the resulting `sessions` field is not even
a dict. The claim as stated (for every legacy flat document) is false. -/
theorem load_cache_legacy_sessions_key_lost :
    load_cache (some (.ok (.pdict [("sessions", .pstr "vs_7"), ("_last", .pstr "vs_7")]))) =
      .ok (.pdict [("sessions", .pstr "vs_7"), ("files_per_vs", .pdict []),
                   ("_last", .pstr "vs_7")]) ∧
    (∀ sess : List (String × PyVal),
      dget (entriesOf (.pdict [("sessions", .pstr "vs_7"), ("files_per_vs", .pdict []),
        ("_last", .pstr "vs_7")])) "sessions" ≠ some (.pdict sess)) := by
  refine ⟨rfl, ?_⟩
  intro sess h
  have h' : some (PyVal.pstr "vs_7") = some (PyVal.pdict sess) := h
  injection h' with h'
  exact PyVal.noConfusion h'

/-- C3 witness: loading the flat document of the claim yields a cache with
sessions keyA ↦ vs_1, last vs_1 and empty files_per_vs. -/
theorem load_cache_legacy_upgrade_witness :
    load_cache (some (.ok (.pdict [("keyA", .pstr "vs_1"), ("_last", .pstr "vs_1")]))) =
      .ok (.pdict [("sessions", .pdict [("keyA", .pstr "vs_1")]),
                   ("files_per_vs", .pdict []), ("_last", .pstr "vs_1")]) := by
  have h := (load_cache_legacy_upgrade [("keyA", .pstr "vs_1"), ("_last", .pstr "vs_1")]
    rfl rfl (by decide)).1
  exact h

/-- C7 counterexample: with process environment A set to the text value
`$B` and B set to `x` (legal environment contents; `os.path.expandvars`
performs a single pass and does not rescan inserted values),
`canonicalize("$A")` is `$B` while `canonicalize("$B")` is `x`, so
`canonicalize(canonicalize("$A")) ≠ canonicalize("$A")`: the claim that
canonicalization is idempotent for every input string is false. -/
theorem canonical_key_not_idempotent :
    canonical_key envVarChain "$A" = "$B" ∧
    canonical_key envVarChain (canonical_key envVarChain "$A") = "x" ∧
    canonical_key envVarChain (canonical_key envVarChain "$A") ≠
      canonical_key envVarChain "$A" :=
  ⟨rfl, rfl, by decide⟩

/-- C7 (amended): canonicalization is idempotent at an input x provided
re-expanding its own result changes nothing (which holds whenever the
environment's values and the home directory introduce no further `$`/`~`
references — exactly what the counterexample violates) and the external
abspath preserves directory status and is idempotent on the expanded
input (true of `os.path.abspath`). -/
theorem canonical_key_idem_of_stable (env : Env) (x : String)
    (hstable : expand_input env (canonical_key env x) = canonical_key env x)
    (hdir1 : env.isdir (expand_input env x) = true →
      env.isdir (env.abspath (expand_input env x)) = true)
    (hdir2 : env.isdir (expand_input env x) = true →
      env.abspath (env.abspath (expand_input env x)) = env.abspath (expand_input env x)) :
    canonical_key env (canonical_key env x) = canonical_key env x := by
  by_cases h : env.isdir (expand_input env x) = true
  · have hx : canonical_key env x = env.abspath (expand_input env x) := by
      simp [canonical_key, h]
    rw [hx] at hstable ⊢
    simp [canonical_key, hstable, hdir1 h, hdir2 h]
  · have hb : env.isdir (expand_input env x) = false := by
      cases hh : env.isdir (expand_input env x)
      · rfl
      · exact absurd hh h
    have hx : canonical_key env x = expand_input env x := by
      simp [canonical_key, hb]
    rw [hx] at hstable ⊢
    simp [canonical_key, hstable, hb]

/-- C7 witness: in an environment with a directory `d` of absolute path
`/d`, canonicalization is idempotent at the directory input `d`. -/
theorem canonical_key_idem_of_stable_witness :
    canonical_key envOneDir (canonical_key envOneDir "d") = canonical_key envOneDir "d" :=
  canonical_key_idem_of_stable envOneDir "d" (by decide)
    (fun _ => by decide) (fun _ => by decide)

/-- C6: resolving the token "auto" against a cache whose loaded `_last` is
absent (None) fails with the session-not-found error; after a
create-session run has recorded store identifier V (a nonempty string) via
`save_vector_store_id_for_key`, resolving "auto" returns V. -/
theorem resolve_auto_spec (env : Env) :
    (∀ fs c, load_cache fs = .ok c → dgetD (entriesOf c) "_last" .pnone = .pnone →
      (resolve_vector_store_id env fs "auto").1 = .error .noCachedStore) ∧
    (∀ key V fs fs', V ≠ "" → save_vector_store_id_for_key key V fs = .ok fs' →
      (resolve_vector_store_id env fs' "auto").1 = .ok (.pstr V)) := by
  constructor
  · intro fs c hload hlast
    simp [resolve_vector_store_id, load_last_vector_store_id, hload, hlast, pyTruthy]
  · intro key V fs fs' hV hsave
    rcases hload : load_cache fs with e | c
    · rw [save_vector_store_id_for_key, hload] at hsave
      exact absurd hsave (by simp)
    · obtain ⟨a, b, last, hc⟩ := load_cache_shape fs c hload
      subst hc
      rcases a with _ | s | l | sess
      · rw [save_vector_store_id_for_key, hload] at hsave
        exact absurd hsave (by simp [entriesOf, dget])
      · rw [save_vector_store_id_for_key, hload] at hsave
        exact absurd hsave (by simp [entriesOf, dget])
      · rw [save_vector_store_id_for_key, hload] at hsave
        exact absurd hsave (by simp [entriesOf, dget])
      · rw [save_vector_store_id_for_key, hload] at hsave
        have hfs' : fs' = some (.ok (.pdict
            [("sessions", .pdict (dset sess key (.pstr V))), ("files_per_vs", b),
             ("_last", .pstr V)])) := by
          have := hsave
          simp only [entriesOf, dget, if_pos rfl] at this
          injection this with this
          exact this.symm
        subst hfs'
        simp [resolve_vector_store_id, load_last_vector_store_id, load_cache,
          entriesOf, dget, dgetD, pyTruthy, hV]

/-- C6 witness: resolving "auto" on a fresh (missing) cache fails; after
recording store id vs_9, "auto" resolves to vs_9. -/
theorem resolve_auto_spec_witness :
    (resolve_vector_store_id envNoFiles none "auto").1 = .error .noCachedStore ∧
    (resolve_vector_store_id envNoFiles
      (some (.ok (.pdict [("sessions", .pdict [("k", .pstr "vs_9")]),
        ("files_per_vs", .pdict []), ("_last", .pstr "vs_9")]))) "auto").1 =
      .ok (.pstr "vs_9") :=
  ⟨(resolve_auto_spec envNoFiles).1 none (.pdict emptyCacheEntries) rfl rfl,
   (resolve_auto_spec envNoFiles).2 "k" "vs_9" none _ (by decide) rfl⟩

/-- Evaluation of resolve on the token "auto": the result is a function of
the loaded `_last` value alone. -/
theorem resolve_auto_eval (env : Env) (fs : FileState) (c : PyVal)
    (h : load_cache fs = .ok c) :
    (resolve_vector_store_id env fs "auto").1 =
      if pyTruthy (dgetD (entriesOf c) "_last" .pnone) then
        Except.ok (dgetD (entriesOf c) "_last" .pnone)
      else Except.error RagErr.noCachedStore := by
  by_cases hp : pyTruthy (dgetD (entriesOf c) "_last" .pnone) = true
  · simp [resolve_vector_store_id, load_last_vector_store_id, h, hp]
  · simp [resolve_vector_store_id, load_last_vector_store_id, h, hp]

/-- C10: a token with the literal prefix `vs_` is returned verbatim without
consulting the cache, whatever the cache file contains (in particular even
if the token is a cached session key or names a directory); the result of
resolving "auto" depends only on the loaded `_last` value, never on the
sessions map (so a session recorded under the canonical key "auto" is
unreachable through resolve); and resolve never mutates the cache file. -/
theorem resolve_vs_passthrough_spec :
    (∀ (env : Env) (fs : FileState) (t : String), pyStartsWith "vs_" t = true →
      (resolve_vector_store_id env fs t).1 = .ok (.pstr t)) ∧
    (∀ (env : Env) (fs₁ fs₂ : FileState) (c₁ c₂ : PyVal),
      load_cache fs₁ = .ok c₁ → load_cache fs₂ = .ok c₂ →
      dgetD (entriesOf c₁) "_last" .pnone = dgetD (entriesOf c₂) "_last" .pnone →
      (resolve_vector_store_id env fs₁ "auto").1 =
        (resolve_vector_store_id env fs₂ "auto").1) ∧
    (∀ (env : Env) (fs : FileState) (t : String),
      (resolve_vector_store_id env fs t).2 = fs) := by
  refine ⟨?_, ?_, ?_⟩
  · intro env fs t ht
    have hne : t ≠ "auto" := by
      intro hh
      subst hh
      exact absurd ht (by decide)
    simp [resolve_vector_store_id, hne, ht]
  · intro env fs₁ fs₂ c₁ c₂ h1 h2 heq
    rw [resolve_auto_eval env fs₁ c₁ h1, resolve_auto_eval env fs₂ c₂ h2, heq]
  · intro env fs t
    unfold resolve_vector_store_id
    split
    · split
      · rfl
      · split <;> rfl
    · split
      · rfl
      · split
        · rfl
        · split <;> rfl

/-- C10 witness: a concrete `vs_`-token passes through verbatim with the
cache file untouched, and "auto" resolves identically on a missing and on
an invalid cache file. -/
theorem resolve_vs_passthrough_spec_witness :
    (resolve_vector_store_id envNoFiles fsOneIndexed "vs_abc").1 = .ok (.pstr "vs_abc") ∧
    (resolve_vector_store_id envNoFiles fsOneIndexed "vs_abc").2 = fsOneIndexed ∧
    (resolve_vector_store_id envNoFiles none "auto").1 =
      (resolve_vector_store_id envNoFiles (some (.error ())) "auto").1 :=
  ⟨resolve_vs_passthrough_spec.1 envNoFiles fsOneIndexed "vs_abc" (by decide),
   resolve_vs_passthrough_spec.2.2 envNoFiles fsOneIndexed "vs_abc",
   resolve_vs_passthrough_spec.2.1 envNoFiles none (some (.error ()))
     (.pdict emptyCacheEntries) (.pdict emptyCacheEntries) rfl rfl rfl⟩

/-- C1 (amended): when the collection for input G is nonempty and every
collected supported file is already in the recorded uploaded set for store
S, extend performs zero upload attempts, issues no cost-confirmation
prompt, reports nothing-to-do and returns with the cache file unchanged.
(Nonemptiness is forced by the counterexample: an empty collection raises
the no-supported-files error before the diff is taken.) -/
theorem extend_nothing_to_do_of_subset (env : Env) (confirm : Bool)
    (uploadOk : String → Bool) (S G : String) (fs : FileState) (A : List String)
    (hne : (_collect_supported_files env G).1 ≠ [])
    (hA : get_indexed_files fs S = .ok A)
    (hsub : ∀ p ∈ (_collect_supported_files env G).1, p ∈ A) :
    extend_path_or_glob env confirm uploadOk S G fs =
      (.nothingToDo, ⟨false, false, []⟩, fs) := by
  have hempty : (_collect_supported_files env G).1.isEmpty = false :=
    List.isEmpty_eq_false.mpr hne
  have hfilter : (_collect_supported_files env G).1.filter (fun p => !A.contains p) = [] := by
    rw [List.filter_eq_nil_iff]
    intro p hp
    have hmem : A.contains p = true := List.elem_iff.mpr (hsub p hp)
    simp [hmem, hsub p hp]
  simp only [extend_path_or_glob, hempty, Bool.false_eq_true, if_false, hA, hfilter,
    List.isEmpty_nil, if_true]

/-- C1 counterexample: with a glob that matches nothing, the collected
supported set is empty, hence contained in the recorded uploaded set for
any store, yet extend raises the no-supported-files error naming the input
instead of reporting nothing-to-do: the claim as stated is false. -/
theorem extend_empty_collect_not_nothing_to_do :
    (_collect_supported_files envNoFiles "docs").1 = [] ∧
    get_indexed_files none "vs_x" = .ok [] ∧
    (extend_path_or_glob envNoFiles true (fun _ => true) "vs_x" "docs" none).1 =
      .noSupported "docs" ∧
    (extend_path_or_glob envNoFiles true (fun _ => true) "vs_x" "docs" none).1 ≠
      .nothingToDo :=
  ⟨rfl, rfl, rfl, by decide⟩

/-- C1 witness: extending vs_1 (which already has /a.md recorded) with an
input collecting exactly /a.md reports nothing-to-do with no prompt, no
uploads and an unchanged cache file. -/
theorem extend_nothing_to_do_of_subset_witness :
    extend_path_or_glob envOneMd true (fun _ => true) "vs_1" "docs" fsOneIndexed =
      (.nothingToDo, ⟨false, false, []⟩, fsOneIndexed) :=
  extend_nothing_to_do_of_subset envOneMd true (fun _ => true) "vs_1" "docs" fsOneIndexed
    ["/a.md"] (by decide) rfl (by decide)

/-- C4: declining the cost-confirmation prompt aborts both create-session
(index) and extend with SystemExit status 0 after the prompt but before
any remote store creation and before any upload attempt, leaving the cache
file contents unchanged. The hypotheses state that each run reaches its
prompt (a nonempty collection; for extend also a nonempty new-file diff). -/
theorem decline_confirm_aborts_clean (env : Env) (uploadOk : String → Bool)
    (newId S G : String) (fs : FileState) (A : List String) :
    ((_collect_supported_files env G).1 ≠ [] →
      index_path_or_glob env false uploadOk newId G fs =
        (.exited 0, ⟨true, false, []⟩, fs)) ∧
    (get_indexed_files fs S = .ok A →
      (∃ p ∈ (_collect_supported_files env G).1, p ∉ A) →
      extend_path_or_glob env false uploadOk S G fs =
        (.exited 0, ⟨true, false, []⟩, fs)) := by
  constructor
  · intro hne
    have hempty : (_collect_supported_files env G).1.isEmpty = false :=
      List.isEmpty_eq_false.mpr hne
    simp [index_path_or_glob, hempty]
  · rintro hA ⟨p, hp, hpA⟩
    have hempty : (_collect_supported_files env G).1.isEmpty = false :=
      List.isEmpty_eq_false.mpr (List.ne_nil_of_mem hp)
    have hmem : p ∈ (_collect_supported_files env G).1.filter (fun q => !A.contains q) := by
      refine List.mem_filter.mpr ⟨hp, ?_⟩
      have : A.contains p = false := by
        cases hc : A.contains p
        · rfl
        · exact absurd (List.elem_iff.mp hc) hpA
      simpa [this] using hpA
    have hnf : ((_collect_supported_files env G).1.filter (fun q => !A.contains q)).isEmpty
        = false := List.isEmpty_eq_false.mpr (List.ne_nil_of_mem hmem)
    simp [extend_path_or_glob, hempty, hA, hnf]
    exact ⟨p, hp, hpA⟩

/-- C4 witness: with one collectible file and a declined prompt, both index
and extend exit with status 0, create no store, attempt no upload and leave
the missing cache file untouched. -/
theorem decline_confirm_aborts_clean_witness :
    index_path_or_glob envOneMd false (fun _ => true) "vs_9" "docs" none =
      (.exited 0, ⟨true, false, []⟩, none) ∧
    extend_path_or_glob envOneMd false (fun _ => true) "vs_9" "docs" none =
      (.exited 0, ⟨true, false, []⟩, none) :=
  ⟨(decline_confirm_aborts_clean envOneMd (fun _ => true) "vs_9" "vs_9" "docs" none []).1
     (by decide),
   (decline_confirm_aborts_clean envOneMd (fun _ => true) "vs_9" "vs_9" "docs" none []).2
     rfl ⟨"/a.md", by decide, by decide⟩⟩

/-- C8: collection returns a deduplicated list that contains exactly the
absolute forms of the glob-matched regular files whose case-insensitively
compared extension is in the fixed allow-list; every output path is
absolute whenever abspath produces absolute paths on the matched files
(a property of `os.path.abspath`); and when the supported set is empty the
operation fails with the no-supported-files error naming the input, with
no prompt, no store creation and no upload, instead of proceeding or
crashing. -/
theorem collect_supported_spec (env : Env) (G : String) (confirm : Bool)
    (uploadOk : String → Bool) (newId : String) (fs : FileState) :
    (_collect_supported_files env G).1.Nodup ∧
    (∀ p, p ∈ (_collect_supported_files env G).1 ↔
      ∃ q, q ∈ collectRawPaths env G ∧ env.isfile q = true ∧
        pyLower (splitextExt q) ∈ SUPPORTED_EXTENSIONS ∧ p = env.abspath q) ∧
    ((∀ q ∈ collectRawPaths env G, pyStartsWith "/" (env.abspath q) = true) →
      ∀ p ∈ (_collect_supported_files env G).1, pyStartsWith "/" p = true) ∧
    ((_collect_supported_files env G).1 = [] →
      index_path_or_glob env confirm uploadOk newId G fs =
        (.noSupported G, ⟨false, false, []⟩, fs)) := by
  have hmem : ∀ p, p ∈ (_collect_supported_files env G).1 ↔
      ∃ q, q ∈ collectRawPaths env G ∧ env.isfile q = true ∧
        pyLower (splitextExt q) ∈ SUPPORTED_EXTENSIONS ∧ p = env.abspath q := by
    intro p
    show p ∈ pythonSortedSet (((collectRawPaths env G).filter (isSupportedFile env)).map
      env.abspath) ↔ _
    rw [mem_pythonSortedSet, List.mem_map]
    constructor
    · rintro ⟨q, hq, rfl⟩
      rw [List.mem_filter] at hq
      have hs := hq.2
      rw [isSupportedFile, Bool.and_eq_true] at hs
      exact ⟨q, hq.1, hs.1, List.elem_iff.mp hs.2, rfl⟩
    · rintro ⟨q, hqraw, hfile, hext, rfl⟩
      refine ⟨q, List.mem_filter.mpr ⟨hqraw, ?_⟩, rfl⟩
      rw [isSupportedFile, Bool.and_eq_true]
      exact ⟨hfile, List.elem_iff.mpr hext⟩
  refine ⟨nodup_pythonSortedSet _, hmem, ?_, ?_⟩
  · intro habs p hp
    obtain ⟨q, hqraw, _, _, rfl⟩ := (hmem p).mp hp
    exact habs q hqraw
  · intro hempty
    have hb : (_collect_supported_files env G).1.isEmpty = true := by
      rw [hempty]
      rfl
    simp [index_path_or_glob, hb]

/-- C8 witness: in an environment whose glob matches the regular file
`a.md`, collection returns its absolute path `/a.md` (deduplicated), and an
environment matching nothing makes index fail with the error naming the
input. -/
theorem collect_supported_spec_witness :
    "/a.md" ∈ (_collect_supported_files envOneMd "docs").1 ∧
    (_collect_supported_files envOneMd "docs").1.Nodup ∧
    index_path_or_glob envNoFiles true (fun _ => true) "vs_1" "nope" none =
      (.noSupported "nope", ⟨false, false, []⟩, none) :=
  ⟨((collect_supported_spec envOneMd "docs" true (fun _ => true) "vs_1" none).2.1
      "/a.md").mpr ⟨"a.md", by decide, by decide, by decide, by decide⟩,
   (collect_supported_spec envOneMd "docs" true (fun _ => true) "vs_1" none).1,
   (collect_supported_spec envNoFiles "nope" true (fun _ => true) "vs_1" none).2.2.2 rfl⟩

/-- Evaluation of add_indexed_files on a canonically shaped cache file. -/
theorem add_indexed_files_eval (env : Env) (S : String) (F : List String)
    (a last : PyVal) (fps : List (String × PyVal)) :
    add_indexed_files env S F (some (.ok (.pdict [("sessions", a),
        ("files_per_vs", .pdict fps), ("_last", last)]))) =
      .ok (some (.ok (.pdict [("sessions", a),
        ("files_per_vs", .pdict (dset fps S (.plist (pythonSortedSet
          (asStrList (dgetD fps S (.plist [])) ++ F.map env.abspath))))),
        ("_last", last)]))) := rfl

/-- Evaluation of add_indexed_files through a load_cache hypothesis. -/
theorem add_indexed_files_eval_of_load (env : Env) (S : String) (F : List String)
    (fs : FileState) (a last : PyVal) (fps : List (String × PyVal))
    (hload : load_cache fs = .ok (.pdict [("sessions", a),
      ("files_per_vs", .pdict fps), ("_last", last)])) :
    add_indexed_files env S F fs =
      .ok (some (.ok (.pdict [("sessions", a),
        ("files_per_vs", .pdict (dset fps S (.plist (pythonSortedSet
          (asStrList (dgetD fps S (.plist [])) ++ F.map env.abspath))))),
        ("_last", last)]))) := by
  unfold add_indexed_files
  rw [hload]
  rfl

/-- Evaluation of get_indexed_files through a load_cache hypothesis. -/
theorem get_indexed_files_eval_of_load (S : String) (fs : FileState)
    (a last : PyVal) (fps : List (String × PyVal))
    (hload : load_cache fs = .ok (.pdict [("sessions", a),
      ("files_per_vs", .pdict fps), ("_last", last)])) :
    get_indexed_files fs S = .ok (asStrList (dgetD fps S (.plist []))) := by
  unfold get_indexed_files
  rw [hload]
  rfl

/-- C2: after a successful record_uploaded (`add_indexed_files`) of the
file list F into store S, the recorded uploaded set contains the absolute
form of every file of F and every previously recorded path (the set never
shrinks); calling it again with the same F leaves the cache file, hence
the set, unchanged (idempotent); and the operation is order-independent:
any list with the same members as F produces the same file state. -/
theorem add_indexed_files_superset_idem (env : Env) (S : String) (F : List String)
    (fs fs' : FileState) (h : add_indexed_files env S F fs = .ok fs') :
    (∃ prev cur, get_indexed_files fs S = .ok prev ∧ get_indexed_files fs' S = .ok cur ∧
      (∀ f ∈ F, env.abspath f ∈ cur) ∧ ∀ p ∈ prev, p ∈ cur) ∧
    add_indexed_files env S F fs' = .ok fs' ∧
    (∀ F' : List String, (∀ x, x ∈ F' ↔ x ∈ F) →
      add_indexed_files env S F' fs = .ok fs') := by
  rcases hload : load_cache fs with e | c
  · rw [add_indexed_files, hload] at h
    exact absurd h (by simp)
  · obtain ⟨a, b, last, hc⟩ := load_cache_shape fs c hload
    subst hc
    rcases b with _ | s | l | fps
    · have hbad : add_indexed_files env S F fs = .error () := by
        unfold add_indexed_files
        rw [hload]
        rfl
      rw [hbad] at h
      exact absurd h (by simp)
    · have hbad : add_indexed_files env S F fs = .error () := by
        unfold add_indexed_files
        rw [hload]
        rfl
      rw [hbad] at h
      exact absurd h (by simp)
    · have hbad : add_indexed_files env S F fs = .error () := by
        unfold add_indexed_files
        rw [hload]
        rfl
      rw [hbad] at h
      exact absurd h (by simp)
    · rw [add_indexed_files_eval_of_load env S F fs a last fps hload] at h
      injection h with h
      subst h
      have hdd : dgetD (dset fps S (.plist (pythonSortedSet
          (asStrList (dgetD fps S (.plist [])) ++ F.map env.abspath)))) S (.plist []) =
          .plist (pythonSortedSet
            (asStrList (dgetD fps S (.plist [])) ++ F.map env.abspath)) := by
        unfold dgetD
        rw [dget_dset_self]
        rfl
      have hcur : get_indexed_files (some (.ok (.pdict [("sessions", a),
          ("files_per_vs", .pdict (dset fps S (.plist (pythonSortedSet
            (asStrList (dgetD fps S (.plist [])) ++ F.map env.abspath))))),
          ("_last", last)]))) S = .ok (pythonSortedSet
            (asStrList (dgetD fps S (.plist [])) ++ F.map env.abspath)) := by
        rw [get_indexed_files_eval_of_load S _ a last _ (load_cache_canonical _ _ _), hdd]
        rfl
      have hin : ∀ f ∈ F, env.abspath f ∈ pythonSortedSet
          (asStrList (dgetD fps S (.plist [])) ++ F.map env.abspath) := by
        intro f hf
        exact mem_pythonSortedSet.mpr
          (List.mem_append.mpr (Or.inr (List.mem_map_of_mem env.abspath hf)))
      refine ⟨⟨asStrList (dgetD fps S (.plist [])),
        pythonSortedSet (asStrList (dgetD fps S (.plist [])) ++ F.map env.abspath),
        get_indexed_files_eval_of_load S fs a last fps hload, hcur, hin, ?_⟩, ?_, ?_⟩
      · intro p hp
        exact mem_pythonSortedSet.mpr (List.mem_append.mpr (Or.inl hp))
      · rw [add_indexed_files_eval_of_load env S F _ a last _ (load_cache_canonical _ _ _),
          hdd]
        have habsorb : pythonSortedSet (asStrList (.plist (pythonSortedSet
            (asStrList (dgetD fps S (.plist [])) ++ F.map env.abspath))) ++
            F.map env.abspath) = pythonSortedSet
              (asStrList (dgetD fps S (.plist [])) ++ F.map env.abspath) := by
          have hiff : ∀ x, x ∈ asStrList (.plist (pythonSortedSet
              (asStrList (dgetD fps S (.plist [])) ++ F.map env.abspath))) ++
              F.map env.abspath ↔ x ∈ pythonSortedSet
                (asStrList (dgetD fps S (.plist [])) ++ F.map env.abspath) := by
            intro x
            constructor
            · intro hx
              rcases List.mem_append.mp hx with hx | hx
              · exact hx
              · obtain ⟨f, hf, hfx⟩ := List.mem_map.mp hx
                exact hfx ▸ hin f hf
            · intro hx
              exact List.mem_append.mpr (Or.inl hx)
          rw [pythonSortedSet_congr hiff,
            pythonSortedSet_eq_self _ (sorted_pythonSortedSet _) (nodup_pythonSortedSet _)]
        rw [habsorb, dset_of_dget_self _ _ _ (dget_dset_self fps S _)]
      · intro F' hF'
        rw [add_indexed_files_eval_of_load env S F' fs a last fps hload]
        have hsame : pythonSortedSet (asStrList (dgetD fps S (.plist [])) ++
            F'.map env.abspath) = pythonSortedSet
              (asStrList (dgetD fps S (.plist [])) ++ F.map env.abspath) := by
          refine pythonSortedSet_congr ?_
          intro x
          rw [List.mem_append, List.mem_append]
          constructor
          · rintro (hx | hx)
            · exact Or.inl hx
            · obtain ⟨f, hf, hfx⟩ := List.mem_map.mp hx
              exact Or.inr (hfx ▸ List.mem_map_of_mem env.abspath ((hF' f).mp hf))
          · rintro (hx | hx)
            · exact Or.inl hx
            · obtain ⟨f, hf, hfx⟩ := List.mem_map.mp hx
              exact Or.inr (hfx ▸ List.mem_map_of_mem env.abspath ((hF' f).mpr hf))
        rw [hsame]

/-- C2 witness: recording /a.md into vs_1 on a fresh cache yields a state
whose recorded set contains /a.md and includes the (empty) previous set. -/
theorem add_indexed_files_superset_idem_witness :
    (∃ prev cur, get_indexed_files none "vs_1" = .ok prev ∧
      get_indexed_files fsOneIndexed "vs_1" = .ok cur ∧
      (∀ f ∈ ["/a.md"], envNoFiles.abspath f ∈ cur) ∧ ∀ p ∈ prev, p ∈ cur) ∧
    add_indexed_files envNoFiles "vs_1" ["/a.md"] fsOneIndexed = .ok fsOneIndexed :=
  have h := add_indexed_files_superset_idem envNoFiles "vs_1" ["/a.md"] none
    fsOneIndexed rfl
  ⟨h.1, h.2.1⟩

/-- C9: in the chat loop, a round whose remote call fails (client-request
error or any other exception is caught alike) is reported and the loop
continues with the in-memory transcript unchanged — neither the failed
user turn nor an assistant turn is appended; a user/assistant pair is
appended exactly when the round succeeds; consequently the transcript
always strictly alternates user then assistant turns (an alternating
transcript stays alternating through every round, command and clear). -/
theorem chat_loop_failed_round_spec (remote : List ChatMsg → Except Unit String) :
    (∀ (rest : List (Option String)) (h : List ChatMsg) (raw : String),
      pyStrip raw ≠ "" → pyLower (pyStrip raw) ≠ "/exit" →
      pyLower (pyStrip raw) ≠ "/quit" → pyLower (pyStrip raw) ≠ "/sair" →
      pyLower (pyStrip raw) ≠ "/clear" →
      remote (h ++ [⟨"user", pyStrip raw⟩]) = .error () →
      chat_loop remote (some raw :: rest) h = chat_loop remote rest h) ∧
    (∀ (rest : List (Option String)) (h : List ChatMsg) (raw a : String),
      pyStrip raw ≠ "" → pyLower (pyStrip raw) ≠ "/exit" →
      pyLower (pyStrip raw) ≠ "/quit" → pyLower (pyStrip raw) ≠ "/sair" →
      pyLower (pyStrip raw) ≠ "/clear" →
      remote (h ++ [⟨"user", pyStrip raw⟩]) = .ok a →
      chat_loop remote (some raw :: rest) h =
        chat_loop remote rest (h ++ [⟨"user", pyStrip raw⟩, ⟨"assistant", a⟩])) ∧
    (∀ (inputs : List (Option String)) (h : List ChatMsg),
      alternates h = true → alternates (chat_loop remote inputs h) = true) := by
  refine ⟨?_, ?_, ?_⟩
  · intro rest h raw h1 h2 h3 h4 h5 hfail
    simp only [chat_loop]
    rw [if_neg h1, if_neg (by simp [h2, h3, h4]), if_neg h5, hfail]
  · intro rest h raw a h1 h2 h3 h4 h5 hok
    simp only [chat_loop]
    rw [if_neg h1, if_neg (by simp [h2, h3, h4]), if_neg h5, hok]
  · intro inputs
    induction inputs with
    | nil =>
      intro h halt
      simpa [chat_loop] using halt
    | cons i rest ih =>
      intro h halt
      rcases i with _ | raw
      · simpa [chat_loop] using halt
      · simp only [chat_loop]
        split
        · exact ih h halt
        · split
          · exact halt
          · split
            · exact ih [] rfl
            · split
              · exact ih h halt
              · exact ih _ (alternates_append_pair h _ _ halt)

/-- C9 witness: with a remote that always fails, a failed round leaves the
empty transcript unchanged, and the loop invariant yields an alternating
(here empty) transcript. -/
theorem chat_loop_failed_round_spec_witness :
    chat_loop (fun _ => .error ()) [some "q"] [] = [] ∧
    alternates (chat_loop (fun _ => .error ()) [some "q"] []) = true :=
  have h1 := (chat_loop_failed_round_spec (fun _ => .error ())).1 [] [] "q"
    (by decide) (by decide) (by decide) (by decide) (by decide) rfl
  have h3 := (chat_loop_failed_round_spec (fun _ => .error ())).2.2 [some "q"] [] rfl
  ⟨by rw [h1]; rfl, h3⟩

end RagCli
